import Mathlib

/-!
Verification of the demand-forecasting pipeline (`appa.py`).

The data model: a data frame is a `Week` column (integers), a `Demand`
column (rationals, all defined), and an ordered list of named forecast
columns whose entries are `Option ℚ` (`none` models a NaN / undefined
entry, exactly pandas' gap semantics).  The three forecast functions,
the error metrics, the best-method selection and the next-week
projection are translated from the source one for one; pandas
reductions that skip NaN (`sum`, `mean`) are modelled by `nanSum` /
`nanMean` over `Option ℚ` lists.
-/

namespace DemandForecast

/-- A forecast column: one optional value per week (`none` = NaN). -/
abbrev Col := List (Option ℚ)

/-- The in-memory data frame: `Week`, `Demand`, and the ordered list of
derived forecast columns (pandas keeps column insertion order). -/
structure Frame where
  week : List ℤ
  demand : List ℚ
  cols : List (String × Col)

/-- pandas `Series.shift(1)` on a fully defined numeric column:
prepend NaN and drop the last value, keeping the length. -/
def shiftNum (xs : List ℚ) : Col :=
  (none :: xs.map some).take xs.length

/-- pandas `Series.shift(1)` on a column that may already hold NaN. -/
def shiftOpt (xs : Col) : Col :=
  (none :: xs).take xs.length

/-- pandas `Series.rolling(window=3).mean()`: at position `j` the mean of
the three entries ending at `j`, NaN while the window is not full. -/
def rollingMean3 (xs : List ℚ) : Col :=
  (List.range xs.length).map (fun j =>
    if 2 ≤ j then some ((xs.getD (j - 2) 0 + xs.getD (j - 1) 0 + xs.getD j 0) / 3)
    else none)

/-- First column whose name matches, as pandas `df[name]` (KeyError = `none`). -/
def lookupCol : List (String × Col) → String → Option Col
  | [], _ => none
  | (k, w) :: rest, n => if k = n then some w else lookupCol rest n

/-- `df[name] = values`: overwrite the column in place if the name exists,
otherwise append it as the last column. -/
def setColList : List (String × Col) → String → Col → List (String × Col)
  | [], n, v => [(n, v)]
  | (k, w) :: rest, n, v =>
    if k = n then (n, v) :: rest else (k, w) :: setColList rest n v

/-- `df[name] = values` on a whole frame. -/
def setCol (f : Frame) (n : String) (v : Col) : Frame :=
  ⟨f.week, f.demand, setColList f.cols n v⟩

/-- `naive_forecast`: `df['Naive'] = df['Demand'].shift(1)`. -/
def naive_forecast (f : Frame) : Frame :=
  setCol f "Naive" (shiftNum f.demand)

/-- `three_weeks_moving_average`:
`df['ThreeWeeksMA'] = df['Demand'].rolling(window=3).mean().shift(1)`. -/
def three_weeks_moving_average (f : Frame) : Frame :=
  setCol f "ThreeWeeksMA" (shiftOpt (rollingMean3 f.demand))

/-- The loop body of `exponential_smoothing` for `i ≥ 1`: given the
previous forecast `prev` and the remaining demands `d[i-1], d[i], …`,
emit `alpha * d[i-1] + (1-alpha) * prev` and recurse. -/
def esAux (α : ℚ) (prev : ℚ) : List ℚ → List ℚ
  | [] => []
  | d :: rest => (α * d + (1 - α) * prev) :: esAux α (α * d + (1 - α) * prev) rest

/-- The `forecasts` list built by `exponential_smoothing`:
`forecasts[0] = demand[0]`, and for `i ≥ 1`
`forecasts[i] = alpha * demand[i-1] + (1-alpha) * forecasts[i-1]`
(the remaining entries consume `demand[0..n-2]`, i.e. `ds.dropLast`). -/
def esList (ds : List ℚ) (α : ℚ) : List ℚ :=
  match ds with
  | [] => []
  | d0 :: _ => d0 :: esAux α d0 ds.dropLast

/-- `exponential_smoothing`: stores the fully defined forecasts list as
the `ExponentialSmoothing` column. -/
def exponential_smoothing (f : Frame) (α : ℚ) : Frame :=
  setCol f "ExponentialSmoothing" ((esList f.demand α).map some)

/-- `df['Demand'] - df[forecast_col]`: elementwise difference, NaN where
the forecast is NaN. -/
def subCol (ds : List ℚ) (c : Col) : Col :=
  List.zipWith (fun d f => f.map (fun x => d - x)) ds c

/-- pandas `Series.sum()`: NaN entries are skipped, empty sum is `0`. -/
def nanSum (xs : Col) : ℚ :=
  (xs.filterMap id).sum

/-- pandas `Series.mean()`: NaN entries are skipped; the mean of no
defined entries is NaN (`none`). -/
def nanMean (xs : Col) : Option ℚ :=
  let ys := xs.filterMap id
  if ys.length = 0 then none else some (ys.sum / ys.length)

/-- `mean_absolute_deviation`: `(df['Demand'] - df[col]).abs().mean()`. -/
def mean_absolute_deviation (ds : List ℚ) (c : Col) : Option ℚ :=
  nanMean ((subCol ds c).map (Option.map (fun x => |x|)))

/-- `mean_squared_error`: `((df['Demand'] - df[col]) ** 2).mean()`. -/
def mean_squared_error (ds : List ℚ) (c : Col) : Option ℚ :=
  nanMean ((subCol ds c).map (Option.map (fun x => x * x)))

/-- `tracking_signal`: `errors.sum() / mad if mad != 0 else np.nan`.
A NaN MAD also yields NaN (in Python `NaN != 0` is true and `x / NaN`
is NaN). -/
def tracking_signal (ds : List ℚ) (c : Col) : Option ℚ :=
  match mean_absolute_deviation ds c with
  | none => none
  | some m => if m ≠ 0 then some (nanSum (subCol ds c) / m) else none

/-- The per-column metric inside `best_forecast`'s loop: raises
`ValueError` for a criterion other than `'MAD'` / `'MSE'`. -/
def metricOf (ds : List ℚ) (method : String) (c : Col) : Except String (Option ℚ) :=
  if method = "MAD" then .ok (mean_absolute_deviation ds c)
  else if method = "MSE" then .ok (mean_squared_error ds c)
  else .error "Method must be 'MAD' or 'MSE'"

/-- The `errors` dict built by `best_forecast`, in column order; the
first unknown-criterion iteration aborts the whole computation. -/
def computeErrors (ds : List ℚ) (method : String) :
    List (String × Col) → Except String (List (String × Option ℚ))
  | [] => .ok []
  | (name, c) :: rest =>
    match metricOf ds method c with
    | .error e => .error e
    | .ok v =>
      match computeErrors ds method rest with
      | .error e => .error e
      | .ok r => .ok ((name, v) :: r)

/-- Python `<` on possibly-NaN floats: any comparison with NaN is false. -/
def optLt (a b : Option ℚ) : Bool :=
  match a, b with
  | some x, some y => decide (x < y)
  | _, _ => false

/-- Python `min(errors, key=errors.get)`: keep the current best, replace
it only on strictly smaller — first entry wins ties. -/
def minEntry (best : String × Option ℚ) :
    List (String × Option ℚ) → String × Option ℚ
  | [] => best
  | e :: rest => minEntry (if optLt e.2 best.2 then e else best) rest

/-- `best_forecast(df, method)`: metric for every non-`Week`/`Demand`
column, then the minimum entry; `min` of an empty dict raises. -/
def best_forecast (f : Frame) (method : String) :
    Except String (String × Option ℚ) :=
  match computeErrors f.demand method f.cols with
  | .error e => .error e
  | .ok [] => .error "min() arg is an empty sequence"
  | .ok (e :: rest) => .ok (minEntry e rest)

/-- `df['Week'].max()` (undefined on an empty column). -/
def listMax : List ℤ → Option ℤ
  | [] => none
  | x :: xs => some (xs.foldl max x)

/-- The single record returned by `forecast_next_week`. -/
structure NextWeek where
  week : ℤ
  naive : ℚ
  threeWeeksMA : ℚ
  expSmoothing : Option ℚ
deriving DecidableEq

/-- `forecast_next_week(df, alpha)`: `Week = max + 1`; Naive is the last
demand; ThreeWeeksMA is the mean of the last 3 demands when at least 3
exist, else the mean of all; ExponentialSmoothing is
`alpha * demand[last] + (1-alpha) * forecast[last]` using the stored
`ExponentialSmoothing` column. `none` models the exceptions raised on an
empty frame or a missing column. -/
def forecast_next_week (f : Frame) (α : ℚ) : Option NextWeek :=
  match listMax f.week, f.demand.getLast?, lookupCol f.cols "ExponentialSmoothing" with
  | some w, some lastD, some esc =>
    match esc.getLast? with
    | some lastF =>
      some { week := w + 1
             naive := lastD
             threeWeeksMA :=
               if 3 ≤ f.demand.length then
                 (f.demand.drop (f.demand.length - 3)).sum / 3
               else f.demand.sum / f.demand.length
             expSmoothing := lastF.map (fun lf => α * lastD + (1 - α) * lf) }
    | none => none
  | _, _, _ => none

/-- Specification-side error list: the differences `demand[i] - forecast[i]`
taken over exactly the indices where the forecast is defined. -/
def specErrors (ds : List ℚ) (c : Col) : List ℚ :=
  (ds.zip c).filterMap (fun p => p.2.map (fun x => p.1 - x))

/-- Specification-side mean: undefined on the empty list. -/
def specMean (xs : List ℚ) : Option ℚ :=
  if xs.length = 0 then none else some (xs.sum / xs.length)

/-- The worked example of the specification: `week = [1,2,3,4]`,
`demand = [10,12,11,13]`, all three forecast passes applied with
`alpha = 0.1`. -/
def exFrame : Frame :=
  exponential_smoothing
    (three_weeks_moving_average
      (naive_forecast ⟨[1, 2, 3, 4], [10, 12, 11, 13], []⟩)) (1 / 10)

/-- Number of defined (non-NaN) entries of a column. -/
def definedCount (c : Col) : ℕ :=
  c.countP (fun o => o.isSome)

/-- Index form of the `ThreeWeeksMA` column, used in proofs: entry `i`
is the mean of the three demands before `i` once `i ≥ 3`. -/
def twmAlt (ds : List ℚ) : Col :=
  (List.range ds.length).map (fun i =>
    if 3 ≤ i then
      some ((ds.getD (i - 3) 0 + ds.getD (i - 2) 0 + ds.getD (i - 1) 0) / 3)
    else none)

/-! ### Structural lemmas about columns -/

theorem shiftNum_cons (d : ℚ) (t : List ℚ) :
    shiftNum (d :: t) = none :: (d :: t).dropLast.map some := by
  simp [shiftNum, List.dropLast_eq_take, List.map_take]

theorem length_shiftNum (ds : List ℚ) : (shiftNum ds).length = ds.length := by
  simp [shiftNum, List.length_take]

theorem lookupCol_setColList_self (l : List (String × Col)) (n : String) (v : Col) :
    lookupCol (setColList l n v) n = some v := by
  induction l with
  | nil => simp [setColList, lookupCol]
  | cons p rest ih =>
    by_cases h : p.1 = n
    · simp [setColList, lookupCol, h]
    · simp [setColList, lookupCol, h, ih]

theorem lookupCol_setColList_other (l : List (String × Col)) (n c : String) (v : Col)
    (h : c ≠ n) : lookupCol (setColList l n v) c = lookupCol l c := by
  induction l with
  | nil => simp [setColList, lookupCol, Ne.symm h]
  | cons p rest ih =>
    by_cases hp : p.1 = n
    · subst hp
      simp [setColList, lookupCol, Ne.symm h]
    · simp only [setColList, if_neg hp]
      by_cases hc : p.1 = c
      · simp [lookupCol, hc]
      · simp [lookupCol, hc, ih]

theorem map_fst_setColList (l : List (String × Col)) (n : String) (v : Col) :
    (setColList l n v).map Prod.fst =
      if n ∈ l.map Prod.fst then l.map Prod.fst else l.map Prod.fst ++ [n] := by
  induction l with
  | nil => simp [setColList]
  | cons p rest ih =>
    by_cases hp : p.1 = n
    · simp [setColList, hp]
    · simp only [setColList, if_neg hp, List.map_cons, List.mem_cons, ih]
      by_cases hm : n ∈ rest.map Prod.fst
      · simp [hm, Ne.symm hp]
      · simp [hm, Ne.symm hp]

theorem definedCount_shiftNum (ds : List ℚ) :
    definedCount (shiftNum ds) = ds.length - 1 := by
  cases ds with
  | nil => simp [definedCount, shiftNum]
  | cons d t =>
    rw [definedCount, shiftNum_cons, List.countP_cons, List.countP_map]
    simp [Function.comp_def]

theorem length_shiftOpt (xs : Col) : (shiftOpt xs).length = xs.length := by
  simp [shiftOpt, List.length_take]

theorem length_rollingMean3 (ds : List ℚ) :
    (rollingMean3 ds).length = ds.length := by
  simp [rollingMean3]

theorem rollingMean3_getElem? (ds : List ℚ) (j : ℕ) (h : j < ds.length) :
    (rollingMean3 ds)[j]? =
      some (if 2 ≤ j then
        some ((ds.getD (j - 2) 0 + ds.getD (j - 1) 0 + ds.getD j 0) / 3)
      else none) := by
  rw [rollingMean3, List.getElem?_map, List.getElem?_range h]
  rfl

theorem twm_eq_twmAlt (ds : List ℚ) :
    shiftOpt (rollingMean3 ds) = twmAlt ds := by
  apply List.ext_getElem?
  intro i
  rw [shiftOpt, List.getElem?_take, length_rollingMean3]
  by_cases hi : i < ds.length
  · rw [if_pos hi]
    cases i with
    | zero =>
      rw [twmAlt, List.getElem?_map, List.getElem?_range hi]
      simp
    | succ k =>
      rw [List.getElem?_cons_succ, rollingMean3_getElem? ds k (by omega)]
      rw [twmAlt, List.getElem?_map, List.getElem?_range hi]
      have e1 : k + 1 - 3 = k - 2 := by omega
      have e2 : k + 1 - 2 = k - 1 := by omega
      have e3 : k + 1 - 1 = k := by omega
      simp only [Option.map_some', e1, e2, e3]
      by_cases h2 : 2 ≤ k
      · rw [if_pos h2, if_pos (by omega : 3 ≤ k + 1)]
      · rw [if_neg h2, if_neg (by omega : ¬3 ≤ k + 1)]
  · rw [if_neg hi]
    rw [twmAlt, List.getElem?_eq_none]
    simp [Nat.le_of_not_lt hi]

theorem definedCount_rangeIf (v : ℕ → ℚ) (k n : ℕ) :
    definedCount ((List.range n).map (fun i => if k ≤ i then some (v i) else none))
      = n - k := by
  induction n with
  | zero => simp [definedCount]
  | succ m ih =>
    rw [List.range_succ, List.map_append, definedCount, List.countP_append]
    rw [definedCount] at ih
    rw [ih]
    by_cases hk : k ≤ m
    · simp only [List.map_cons, List.map_nil, List.countP_cons, List.countP_nil, if_pos hk]
      simp
      omega
    · simp only [List.map_cons, List.map_nil, List.countP_cons, List.countP_nil, if_neg hk]
      simp
      omega

theorem definedCount_twm (ds : List ℚ) :
    definedCount (shiftOpt (rollingMean3 ds)) = ds.length - 3 := by
  rw [twm_eq_twmAlt]
  exact definedCount_rangeIf _ 3 ds.length

theorem take3_drop_sum (ds : List ℚ) (k : ℕ) (h : k + 3 ≤ ds.length) :
    ((ds.drop k).take 3).sum = ds.getD k 0 + ds.getD (k + 1) 0 + ds.getD (k + 2) 0 := by
  rw [List.drop_eq_getElem_cons (by omega : k < ds.length)]
  rw [List.drop_eq_getElem_cons (by omega : k + 1 < ds.length)]
  rw [List.drop_eq_getElem_cons (by omega : k + 2 < ds.length)]
  rw [List.getD_eq_getElem ds 0 (by omega : k < ds.length)]
  rw [List.getD_eq_getElem ds 0 (by omega : k + 1 < ds.length)]
  rw [List.getD_eq_getElem ds 0 (by omega : k + 2 < ds.length)]
  simp only [List.take_succ_cons, List.take_zero, List.sum_cons, List.sum_nil]
  ring

theorem esAux_length (α : ℚ) (p : ℚ) (l : List ℚ) :
    (esAux α p l).length = l.length := by
  induction l generalizing p with
  | nil => rfl
  | cons d rest ih => simp [esAux, ih]

theorem esList_length (ds : List ℚ) (α : ℚ) :
    (esList ds α).length = ds.length := by
  cases ds with
  | nil => rfl
  | cons d t => simp [esList, esAux_length]

theorem definedCount_map_some (l : List ℚ) :
    definedCount (l.map some) = l.length := by
  rw [definedCount, List.countP_map]
  simp [Function.comp_def]

theorem esAux_getElem?_succ (α : ℚ) :
    ∀ (l : List ℚ) (p : ℚ) (i : ℕ),
      (esAux α p l)[i + 1]? =
        ((esAux α p l)[i]?).bind
          (fun fp => (l[i + 1]?).map (fun d => α * d + (1 - α) * fp))
  | [], _, _ => by simp [esAux]
  | d :: rest, p, 0 => by
    cases rest with
    | nil => simp [esAux]
    | cons d2 r2 => simp [esAux]
  | d :: rest, p, i + 1 => by
    have ih := esAux_getElem?_succ α rest (α * d + (1 - α) * p) i
    simp only [esAux, List.getElem?_cons_succ]
    exact ih

theorem esList_getElem?_succ (ds : List ℚ) (α : ℚ) (i : ℕ) (h : i + 1 < ds.length) :
    (esList ds α)[i + 1]? =
      ((esList ds α)[i]?).bind
        (fun fp => (ds[i]?).map (fun d => α * d + (1 - α) * fp)) := by
  cases ds with
  | nil => simp at h
  | cons d0 t =>
    cases t with
    | nil => simp at h
    | cons d1 t1 =>
      cases i with
      | zero =>
        simp [esList, esAux, List.dropLast]
      | succ k =>
        rw [esList]
        rw [List.getElem?_cons_succ, List.getElem?_cons_succ,
          esAux_getElem?_succ α _ d0 k]
        rw [List.getElem?_dropLast]
        rw [if_pos (by simpa using h)]

/-! ### Error-metric lemmas -/

theorem filterMap_subCol_map (g : ℚ → ℚ) :
    ∀ (ds : List ℚ) (c : Col),
      ((subCol ds c).map (Option.map g)).filterMap id = (specErrors ds c).map g
  | [], c => by simp [subCol, specErrors]
  | d :: dt, [] => by simp [subCol, specErrors]
  | d :: dt, o :: ct => by
    cases o with
    | none =>
      simpa [subCol, specErrors] using filterMap_subCol_map g dt ct
    | some x =>
      simpa [subCol, specErrors] using filterMap_subCol_map g dt ct

theorem filterMap_subCol (ds : List ℚ) (c : Col) :
    (subCol ds c).filterMap id = specErrors ds c := by
  have h := filterMap_subCol_map id ds c
  simpa using h

/-- Python's first-wins minimum over three defined metric values equals
the least value, ties resolved toward the earlier column. -/
theorem minEntry3 (n1 n2 n3 : String) (a b c : ℚ) :
    minEntry (n1, some a) [(n2, some b), (n3, some c)] =
      if a ≤ b ∧ a ≤ c then (n1, some a)
      else if b ≤ c then (n2, some b)
      else (n3, some c) := by
  have u1 : ∀ (b1 e : String × Option ℚ) (rest : List (String × Option ℚ)),
      minEntry b1 (e :: rest) = minEntry (if optLt e.2 b1.2 then e else b1) rest :=
    fun _ _ _ => rfl
  have u0 : ∀ b1 : String × Option ℚ, minEntry b1 [] = b1 := fun _ => rfl
  rw [u1, u1, u0]
  by_cases h1 : b < a
  · rw [if_pos (show optLt (some b) (some a) = true by simp [optLt, h1])]
    by_cases h2 : c < b
    · rw [if_pos (show optLt (some c) (some b) = true by simp [optLt, h2])]
      rw [if_neg (show ¬(a ≤ b ∧ a ≤ c) from fun h => absurd h.1 (not_le.mpr h1)),
        if_neg (not_le.mpr h2)]
    · rw [if_neg (show ¬optLt (some c) (some b) = true by simp [optLt, h2])]
      rw [if_neg (show ¬(a ≤ b ∧ a ≤ c) from fun h => absurd h.1 (not_le.mpr h1)),
        if_pos (not_lt.mp h2)]
  · rw [if_neg (show ¬optLt (some b) (some a) = true by simp [optLt, h1])]
    by_cases h3 : c < a
    · rw [if_pos (show optLt (some c) (some a) = true by simp [optLt, h3])]
      rw [if_neg (show ¬(a ≤ b ∧ a ≤ c) from fun h => absurd h.2 (not_le.mpr h3)),
        if_neg (not_le.mpr (lt_of_lt_of_le h3 (not_lt.mp h1)))]
    · rw [if_neg (show ¬optLt (some c) (some a) = true by simp [optLt, h3])]
      rw [if_pos ⟨not_lt.mp h1, not_lt.mp h3⟩]

/-! ### Claim theorems -/

/-- C6: `naive_forecast` stores the one-period lag of demand as the
`Naive` column: the column has the series' length, entry `0` is
undefined, entry `i` equals `demand[i-1]` for `i ≥ 1`, and exactly
`n - 1` entries are defined. -/
theorem c6_naive_forecast (ds : List ℚ) :
    (∀ f : Frame, f.demand = ds →
      lookupCol (naive_forecast f).cols "Naive" = some (shiftNum ds)) ∧
    (shiftNum ds).length = ds.length ∧
    (ds ≠ [] → (shiftNum ds)[0]? = some none) ∧
    (∀ i : ℕ, i + 1 < ds.length → (shiftNum ds)[i + 1]? = some (ds[i]?)) ∧
    definedCount (shiftNum ds) = ds.length - 1 := by
  refine ⟨?_, length_shiftNum ds, ?_, ?_, definedCount_shiftNum ds⟩
  · intro f hf
    simp [naive_forecast, setCol, hf, lookupCol_setColList_self]
  · intro hne
    cases ds with
    | nil => exact absurd rfl hne
    | cons d t => simp [shiftNum_cons]
  · intro i hi
    cases ds with
    | nil => simp at hi
    | cons d t =>
      rw [shiftNum_cons]
      rw [List.getElem?_cons_succ, List.getElem?_map, List.getElem?_dropLast,
        if_pos (by simpa using hi)]
      rw [List.getElem?_eq_getElem (by omega : i < (d :: t).length)]
      simp

/-- C2: the code's MAD and MSE are the mean of `|demand[i] - forecast[i]|`
and of `(demand[i] - forecast[i])^2` over exactly the indices where the
forecast is defined (undefined forecast periods are skipped, not treated
as zero; no defined index yields an undefined mean). -/
theorem c2_error_metrics (ds : List ℚ) (c : Col) :
    mean_absolute_deviation ds c = specMean ((specErrors ds c).map (fun x => |x|)) ∧
    mean_squared_error ds c = specMean ((specErrors ds c).map (fun x => x * x)) := by
  constructor
  · simp only [mean_absolute_deviation, nanMean, specMean,
      filterMap_subCol_map, List.length_map]
  · simp only [mean_squared_error, nanMean, specMean,
      filterMap_subCol_map, List.length_map]

/-- C3: the tracking signal is the sum of errors over defined indices
divided by MAD when MAD is nonzero, and the explicit undefined value
(`none`, not an exception) when MAD is zero. -/
theorem c3_tracking_signal (ds : List ℚ) (c : Col) (m : ℚ)
    (hm : mean_absolute_deviation ds c = some m) :
    (m ≠ 0 → tracking_signal ds c = some ((specErrors ds c).sum / m)) ∧
    (m = 0 → tracking_signal ds c = none) := by
  constructor
  · intro h
    simp only [tracking_signal, hm, if_pos h]
    rw [nanSum, filterMap_subCol]
  · intro h
    subst h
    simp [tracking_signal, hm]

/-- Witness for C3 on the example series with the `Naive` column:
MAD is `5/3` and the tracking signal is the error sum divided by it. -/
theorem c3_witness :
    mean_absolute_deviation [10, 12, 11, 13] (shiftNum [10, 12, 11, 13]) = some (5 / 3) ∧
    (5 : ℚ) / 3 ≠ 0 ∧
    tracking_signal [10, 12, 11, 13] (shiftNum [10, 12, 11, 13])
      = some ((specErrors [10, 12, 11, 13] (shiftNum [10, 12, 11, 13])).sum / (5 / 3)) := by
  have hm : mean_absolute_deviation [10, 12, 11, 13] (shiftNum [10, 12, 11, 13])
      = some (5 / 3) := by
    simp [mean_absolute_deviation, shiftNum, subCol, nanMean, List.filterMap]
    norm_num
  exact ⟨hm, by norm_num, (c3_tracking_signal _ _ _ hm).1 (by norm_num)⟩

/-- C1 (amended): `exponential_smoothing` stores a fully defined
`ExponentialSmoothing` column of the series' length with
`forecast[0] = demand[0]` and
`forecast[i] = alpha * demand[i-1] + (1-alpha) * forecast[i-1]` for
`i ≥ 1`; on `demand = [10,12,11,13]`, `alpha = 0.1` the column is
`[10, 10, 10.2, 10.28]` (not `[10, 10.2, 10.38, 10.412]` as the
specification's example states). -/
theorem c1_exponential_smoothing (ds : List ℚ) (α : ℚ) :
    (∀ f : Frame, f.demand = ds →
      lookupCol (exponential_smoothing f α).cols "ExponentialSmoothing"
        = some ((esList ds α).map some)) ∧
    (esList ds α).length = ds.length ∧
    definedCount ((esList ds α).map some) = ds.length ∧
    (∀ d0 t, ds = d0 :: t → (esList ds α)[0]? = some d0) ∧
    (∀ i : ℕ, ∀ fi fp dp : ℚ, i + 1 < ds.length →
      (esList ds α)[i + 1]? = some fi → (esList ds α)[i]? = some fp →
      ds[i]? = some dp → fi = α * dp + (1 - α) * fp) ∧
    esList [10, 12, 11, 13] (1 / 10) = [10, 10, 51 / 5, 257 / 25] := by
  refine ⟨?_, esList_length ds α, ?_, ?_, ?_, ?_⟩
  · intro f hf
    simp [exponential_smoothing, setCol, hf, lookupCol_setColList_self]
  · rw [definedCount_map_some, esList_length]
  · intro d0 t hds
    subst hds
    simp [esList]
  · intro i fi fp dp hlen hi hprev hd
    have h := esList_getElem?_succ ds α i hlen
    rw [hi, hprev, hd] at h
    simpa using h
  · norm_num [esList, esAux]

/-- C1's concrete example as the specification states it is false: the
code's exponential-smoothing column on `[10,12,11,13]` with
`alpha = 0.1` is not `[10, 10.2, 10.38, 10.412]`. -/
theorem c1_counterexample :
    esList [10, 12, 11, 13] (1 / 10) ≠ [10, 51 / 5, 519 / 50, 2603 / 250] := by
  norm_num [esList, esAux]

/-- Witness for C1 on the example series: the seed entry and one
instance of the recurrence (`forecast[2] = 0.1*demand[1] + 0.9*forecast[1]`). -/
theorem c1_witness :
    (esList [10, 12, 11, 13] (1 / 10))[0]? = some 10 ∧
    (51 : ℚ) / 5 = (1 / 10) * 12 + (1 - 1 / 10) * 10 := by
  obtain ⟨_, _, _, h4, h5, _⟩ := c1_exponential_smoothing [10, 12, 11, 13] (1 / 10)
  refine ⟨h4 10 [12, 11, 13] rfl, ?_⟩
  exact h5 1 (51 / 5) 10 12 (by norm_num) (by norm_num [esList, esAux])
    (by norm_num [esList, esAux]) (by norm_num)

/-- C7: `three_weeks_moving_average` stores, as the `ThreeWeeksMA`
column, `mean(demand[i-3..i-1])` at every index `i ≥ 3`, undefined below
index 3; the column has the series' length and exactly `n - 3` defined
entries (`0` when `n < 3`). -/
theorem c7_three_weeks_moving_average (ds : List ℚ) :
    (∀ f : Frame, f.demand = ds →
      lookupCol (three_weeks_moving_average f).cols "ThreeWeeksMA"
        = some (shiftOpt (rollingMean3 ds))) ∧
    (shiftOpt (rollingMean3 ds)).length = ds.length ∧
    (∀ i : ℕ, i < 3 → i < ds.length → (shiftOpt (rollingMean3 ds))[i]? = some none) ∧
    (∀ i : ℕ, 3 ≤ i → i < ds.length →
      (shiftOpt (rollingMean3 ds))[i]?
        = some (some (((ds.drop (i - 3)).take 3).sum / 3))) ∧
    definedCount (shiftOpt (rollingMean3 ds)) = ds.length - 3 := by
  refine ⟨?_, ?_, ?_, ?_, definedCount_twm ds⟩
  · intro f hf
    simp [three_weeks_moving_average, setCol, hf, lookupCol_setColList_self]
  · rw [length_shiftOpt, length_rollingMean3]
  · intro i h3 hn
    rw [twm_eq_twmAlt, twmAlt, List.getElem?_map, List.getElem?_range hn]
    simp only [Option.map_some']
    rw [if_neg (by omega : ¬3 ≤ i)]
  · intro i h3 hn
    rw [twm_eq_twmAlt, twmAlt, List.getElem?_map, List.getElem?_range hn]
    rw [take3_drop_sum ds (i - 3) (by omega)]
    have e1 : i - 3 + 1 = i - 2 := by omega
    have e2 : i - 3 + 2 = i - 1 := by omega
    simp [h3, e1, e2]

/-- C4: on a store whose forecast columns are exactly
`Naive, ThreeWeeksMA, ExponentialSmoothing` (in declaration order),
`best_forecast` computes the requested metric for every method and
returns the name/value pair with the least metric, ties resolved toward
the earlier method, for both the MAD and the MSE criterion. -/
theorem c4_best_forecast (w : List ℤ) (ds : List ℚ) (cN cT cE : Col)
    (a b c p q r : ℚ)
    (ha : mean_absolute_deviation ds cN = some a)
    (hb : mean_absolute_deviation ds cT = some b)
    (hc : mean_absolute_deviation ds cE = some c)
    (hp : mean_squared_error ds cN = some p)
    (hq : mean_squared_error ds cT = some q)
    (hr : mean_squared_error ds cE = some r) :
    best_forecast ⟨w, ds, [("Naive", cN), ("ThreeWeeksMA", cT),
        ("ExponentialSmoothing", cE)]⟩ "MAD"
      = .ok (if a ≤ b ∧ a ≤ c then ("Naive", some a)
             else if b ≤ c then ("ThreeWeeksMA", some b)
             else ("ExponentialSmoothing", some c)) ∧
    best_forecast ⟨w, ds, [("Naive", cN), ("ThreeWeeksMA", cT),
        ("ExponentialSmoothing", cE)]⟩ "MSE"
      = .ok (if p ≤ q ∧ p ≤ r then ("Naive", some p)
             else if q ≤ r then ("ThreeWeeksMA", some q)
             else ("ExponentialSmoothing", some r)) := by
  constructor
  · have hce : computeErrors ds "MAD"
        [("Naive", cN), ("ThreeWeeksMA", cT), ("ExponentialSmoothing", cE)]
        = .ok [("Naive", some a), ("ThreeWeeksMA", some b),
            ("ExponentialSmoothing", some c)] := by
      simp [computeErrors, metricOf, ha, hb, hc]
    simp only [best_forecast, hce]
    rw [minEntry3]
  · have hce : computeErrors ds "MSE"
        [("Naive", cN), ("ThreeWeeksMA", cT), ("ExponentialSmoothing", cE)]
        = .ok [("Naive", some p), ("ThreeWeeksMA", some q),
            ("ExponentialSmoothing", some r)] := by
      simp [computeErrors, metricOf, hp, hq, hr]
    simp only [best_forecast, hce]
    rw [minEntry3]

/-- Witness for C4: a concrete store on which `ThreeWeeksMA` has the
least MAD and the least MSE. -/
theorem c4_witness :
    best_forecast ⟨[1, 2], [1, 2], [("Naive", [some 1, some 1]),
        ("ThreeWeeksMA", [some 1, some 2]),
        ("ExponentialSmoothing", [none, some 4])]⟩ "MAD"
      = .ok ("ThreeWeeksMA", some 0) ∧
    best_forecast ⟨[1, 2], [1, 2], [("Naive", [some 1, some 1]),
        ("ThreeWeeksMA", [some 1, some 2]),
        ("ExponentialSmoothing", [none, some 4])]⟩ "MSE"
      = .ok ("ThreeWeeksMA", some 0) := by
  have h := c4_best_forecast [1, 2] [1, 2]
    [some 1, some 1] [some 1, some 2] [none, some 4]
    (1 / 2) 0 2 (1 / 2) 0 4
    (by simp [mean_absolute_deviation, subCol, nanMean, List.filterMap]
        norm_num)
    (by simp [mean_absolute_deviation, subCol, nanMean, List.filterMap])
    (by simp [mean_absolute_deviation, subCol, nanMean, List.filterMap]
        norm_num)
    (by simp [mean_squared_error, subCol, nanMean, List.filterMap]
        norm_num)
    (by simp [mean_squared_error, subCol, nanMean, List.filterMap])
    (by simp [mean_squared_error, subCol, nanMean, List.filterMap]
        norm_num)
  obtain ⟨h1, h2⟩ := h
  constructor
  · rw [h1]
    norm_num
  · rw [h2]
    norm_num

/-- C9: `best_forecast` with a criterion outside `{MAD, MSE}` on a store
holding the three forecast columns surfaces the `ValueError` to the
caller; no name/value result is produced. -/
theorem c9_unknown_criterion (w : List ℤ) (ds : List ℚ) (cN cT cE : Col)
    (method : String) (h1 : method ≠ "MAD") (h2 : method ≠ "MSE") :
    best_forecast ⟨w, ds, [("Naive", cN), ("ThreeWeeksMA", cT),
        ("ExponentialSmoothing", cE)]⟩ method
      = .error "Method must be 'MAD' or 'MSE'" := by
  simp [best_forecast, computeErrors, metricOf, h1, h2]

/-- Witness for C9 with the criterion `"MAPE"`. -/
theorem c9_witness :
    best_forecast ⟨[1], [5], [("Naive", [none]), ("ThreeWeeksMA", [none]),
        ("ExponentialSmoothing", [some 5])]⟩ "MAPE"
      = .error "Method must be 'MAD' or 'MSE'" :=
  c9_unknown_criterion [1] [5] [none] [none] [some 5] "MAPE"
    (by decide) (by decide)

/-- Witness for C7 on the example series: the only defined entry of
`ThreeWeeksMA` is index 3, the mean of the first three demands. -/
theorem c7_witness :
    lookupCol (three_weeks_moving_average ⟨[1, 2, 3, 4], [10, 12, 11, 13], []⟩).cols
        "ThreeWeeksMA" = some (shiftOpt (rollingMean3 [10, 12, 11, 13])) ∧
    (shiftOpt (rollingMean3 ([10, 12, 11, 13] : List ℚ)))[2]? = some none ∧
    (shiftOpt (rollingMean3 ([10, 12, 11, 13] : List ℚ)))[3]?
      = some (some (((([10, 12, 11, 13] : List ℚ).drop 0).take 3).sum / 3)) := by
  obtain ⟨h1, _, h3, h4, _⟩ := c7_three_weeks_moving_average [10, 12, 11, 13]
  exact ⟨h1 _ rfl, h3 2 (by norm_num) (by norm_num), h4 3 (by norm_num) (by norm_num)⟩

/-- Witness for C6 on the example series. -/
theorem c6_witness :
    lookupCol (naive_forecast ⟨[1, 2, 3, 4], [10, 12, 11, 13], []⟩).cols "Naive"
        = some (shiftNum [10, 12, 11, 13]) ∧
    (shiftNum ([10, 12, 11, 13] : List ℚ))[0]? = some none ∧
    (shiftNum ([10, 12, 11, 13] : List ℚ))[2]? = some (([10, 12, 11, 13] : List ℚ)[1]?) := by
  obtain ⟨h1, _, h3, h4, _⟩ := c6_naive_forecast [10, 12, 11, 13]
  exact ⟨h1 _ rfl, h3 (by simp), h4 1 (by norm_num)⟩

/-- C5 (amended): on a non-empty series whose `ExponentialSmoothing`
column has been computed, `forecast_next_week` returns a single record
with `week = max(week) + 1`, `Naive = demand[last]`, `ThreeWeeksMA` the
mean of the last three demands when at least three exist (else the mean
of all), and `ExponentialSmoothing = alpha * demand[last] +
(1-alpha) * forecast[last]`.  On the example series with `alpha = 0.1`
this yields `ExponentialSmoothing = 10.552` (not `11.0708` as the
specification's example states). -/
theorem c5_forecast_next_week (f : Frame) (α : ℚ) (wmax : ℤ)
    (lastD lastF : ℚ) (esc : Col)
    (hw : listMax f.week = some wmax)
    (hd : f.demand.getLast? = some lastD)
    (hc : lookupCol f.cols "ExponentialSmoothing" = some esc)
    (hl : esc.getLast? = some (some lastF)) :
    forecast_next_week f α = some
      { week := wmax + 1
        naive := lastD
        threeWeeksMA :=
          if 3 ≤ f.demand.length then (f.demand.drop (f.demand.length - 3)).sum / 3
          else f.demand.sum / f.demand.length
        expSmoothing := some (α * lastD + (1 - α) * lastF) } := by
  rw [forecast_next_week, hw, hd, hc]
  dsimp only
  rw [hl]
  rfl

/-- C5's concrete example as the specification states it is false: the
projected record on the example frame does not carry
`ExponentialSmoothing = 11.0708` (`= 27677/2500`). -/
theorem c5_counterexample :
    forecast_next_week exFrame (1 / 10) ≠ some ⟨5, 13, 12, some (27677 / 2500)⟩ := by
  have h : forecast_next_week exFrame (1 / 10)
      = some ⟨5, 13, 12, some (1319 / 125)⟩ := by
    simp [exFrame, forecast_next_week, exponential_smoothing,
      three_weeks_moving_average, naive_forecast, setCol, setColList,
      lookupCol, listMax, esList, esAux, List.getLast?]
    norm_num
  rw [h]
  simp only [ne_eq, Option.some.injEq, NextWeek.mk.injEq]
  norm_num

/-- Witness for C5: on the example frame the projection is
`week = 5`, `Naive = 13`, `ThreeWeeksMA = 12`,
`ExponentialSmoothing = 0.1*13 + 0.9*10.28 = 10.552 = 1319/125`. -/
theorem c5_witness :
    forecast_next_week exFrame (1 / 10) = some ⟨5, 13, 12, some (1319 / 125)⟩ := by
  have hw : listMax exFrame.week = some 4 := by
    simp [exFrame, exponential_smoothing, three_weeks_moving_average,
      naive_forecast, setCol, listMax]
  have hd : exFrame.demand.getLast? = some 13 := by
    simp [exFrame, exponential_smoothing, three_weeks_moving_average,
      naive_forecast, setCol, List.getLast?]
  have hc : lookupCol exFrame.cols "ExponentialSmoothing"
      = some ((esList [10, 12, 11, 13] (1 / 10)).map some) := by
    simp [exFrame, exponential_smoothing, three_weeks_moving_average,
      naive_forecast, setCol, setColList, lookupCol]
  have hl : ((esList [10, 12, 11, 13] (1 / 10)).map some).getLast?
      = some (some (257 / 25)) := by
    norm_num [esList, esAux, List.getLast?]
  have h := c5_forecast_next_week exFrame (1 / 10) 4 13 (257 / 25)
    ((esList [10, 12, 11, 13] (1 / 10)).map some) hw hd hc hl
  rw [h]
  have hdem : exFrame.demand = [10, 12, 11, 13] := by
    simp [exFrame, exponential_smoothing, three_weeks_moving_average,
      naive_forecast, setCol]
  rw [hdem]
  norm_num

/-- C10: each forecast function adds or overwrites only its own column:
`Week`, `Demand`, and every other column keep their values, and the
pre-existing column order is preserved (the new name, if absent, is
appended last). -/
theorem c10_frame_effect (f : Frame) (α : ℚ) :
    ((naive_forecast f).week = f.week ∧ (naive_forecast f).demand = f.demand ∧
      (∀ c : String, c ≠ "Naive" →
        lookupCol (naive_forecast f).cols c = lookupCol f.cols c) ∧
      (naive_forecast f).cols.map Prod.fst =
        (if "Naive" ∈ f.cols.map Prod.fst then f.cols.map Prod.fst
         else f.cols.map Prod.fst ++ ["Naive"])) ∧
    ((three_weeks_moving_average f).week = f.week ∧
      (three_weeks_moving_average f).demand = f.demand ∧
      (∀ c : String, c ≠ "ThreeWeeksMA" →
        lookupCol (three_weeks_moving_average f).cols c = lookupCol f.cols c) ∧
      (three_weeks_moving_average f).cols.map Prod.fst =
        (if "ThreeWeeksMA" ∈ f.cols.map Prod.fst then f.cols.map Prod.fst
         else f.cols.map Prod.fst ++ ["ThreeWeeksMA"])) ∧
    ((exponential_smoothing f α).week = f.week ∧
      (exponential_smoothing f α).demand = f.demand ∧
      (∀ c : String, c ≠ "ExponentialSmoothing" →
        lookupCol (exponential_smoothing f α).cols c = lookupCol f.cols c) ∧
      (exponential_smoothing f α).cols.map Prod.fst =
        (if "ExponentialSmoothing" ∈ f.cols.map Prod.fst then f.cols.map Prod.fst
         else f.cols.map Prod.fst ++ ["ExponentialSmoothing"])) := by
  refine ⟨⟨rfl, rfl, ?_, ?_⟩, ⟨rfl, rfl, ?_, ?_⟩, ⟨rfl, rfl, ?_, ?_⟩⟩
  · exact fun c hc => lookupCol_setColList_other f.cols "Naive" c _ hc
  · exact map_fst_setColList f.cols "Naive" _
  · exact fun c hc => lookupCol_setColList_other f.cols "ThreeWeeksMA" c _ hc
  · exact map_fst_setColList f.cols "ThreeWeeksMA" _
  · exact fun c hc => lookupCol_setColList_other f.cols "ExponentialSmoothing" c _ hc
  · exact map_fst_setColList f.cols "ExponentialSmoothing" _

/-- Witness for C10: a pre-existing `Other` column survives all three
forecast passes unchanged. -/
theorem c10_witness :
    lookupCol (naive_forecast ⟨[1], [5], [("Other", [some 1])]⟩).cols "Other"
      = lookupCol [("Other", [some 1])] "Other" ∧
    lookupCol (three_weeks_moving_average ⟨[1], [5], [("Other", [some 1])]⟩).cols "Other"
      = lookupCol [("Other", [some 1])] "Other" ∧
    lookupCol (exponential_smoothing ⟨[1], [5], [("Other", [some 1])]⟩ (1 / 2)).cols "Other"
      = lookupCol [("Other", [some 1])] "Other" := by
  have h := c10_frame_effect ⟨[1], [5], [("Other", [some 1])]⟩ (1 / 2)
  exact ⟨h.1.2.2.1 "Other" (by decide), h.2.1.2.2.1 "Other" (by decide),
    h.2.2.2.2.1 "Other" (by decide)⟩

/-! ### Constant-series lemmas -/

theorem getD_replicate_of_lt (c : ℚ) (n j : ℕ) (h : j < n) :
    (List.replicate n c).getD j 0 = c := by
  rw [List.getD_eq_getElem _ _ (by simpa using h)]
  simp

theorem dropLast_replicate (n : ℕ) (c : ℚ) :
    (List.replicate n c).dropLast = List.replicate (n - 1) c := by
  cases n with
  | zero => rfl
  | succ m =>
    rw [List.replicate_succ', List.dropLast_concat]
    simp

theorem esAux_const (α c : ℚ) : ∀ k, esAux α c (List.replicate k c) = List.replicate k c := by
  intro k
  induction k with
  | zero => rfl
  | succ m ih =>
    rw [List.replicate_succ]
    simp only [esAux]
    have hc : α * c + (1 - α) * c = c := by ring
    rw [hc, ih, ← List.replicate_succ]

theorem esList_const (n : ℕ) (c α : ℚ) :
    esList (List.replicate n c) α = List.replicate n c := by
  cases n with
  | zero => rfl
  | succ m =>
    have h1 : esList (List.replicate (m + 1) c) α
        = c :: esAux α c ((List.replicate (m + 1) c).dropLast) := rfl
    rw [h1, dropLast_replicate]
    simp only [Nat.add_sub_cancel]
    rw [esAux_const]
    rfl

theorem mem_shiftNum_replicate (n : ℕ) (c : ℚ) :
    ∀ o ∈ shiftNum (List.replicate n c), o = none ∨ o = some c := by
  intro o ho
  cases n with
  | zero => simp [shiftNum] at ho
  | succ m =>
    have h1 : shiftNum (List.replicate (m + 1) c) = none :: List.replicate m (some c) := by
      rw [show List.replicate (m + 1) c = c :: List.replicate m c from rfl, shiftNum_cons]
      rw [show (c :: List.replicate m c) = List.replicate (m + 1) c from rfl,
        dropLast_replicate]
      simp
    rw [h1] at ho
    rcases List.mem_cons.mp ho with h | h
    · exact Or.inl h
    · exact Or.inr (List.eq_of_mem_replicate h)

theorem mem_twm_replicate (n : ℕ) (c : ℚ) :
    ∀ o ∈ shiftOpt (rollingMean3 (List.replicate n c)), o = none ∨ o = some c := by
  intro o ho
  rw [twm_eq_twmAlt, twmAlt] at ho
  rcases List.mem_map.mp ho with ⟨i, hi, rfl⟩
  have hin : i < n := by simpa using List.mem_range.mp hi
  by_cases h3 : 3 ≤ i
  · right
    rw [if_pos h3]
    rw [getD_replicate_of_lt c n (i - 3) (by omega),
      getD_replicate_of_lt c n (i - 2) (by omega),
      getD_replicate_of_lt c n (i - 1) (by omega)]
    have : (c + c + c) / 3 = c := by ring
    rw [this]
  · left
    rw [if_neg h3]

theorem subCol_const_mem (c : ℚ) :
    ∀ (ds : List ℚ) (col : Col), (∀ d ∈ ds, d = c) →
      (∀ o ∈ col, o = none ∨ o = some c) →
      ∀ e ∈ subCol ds col, e = none ∨ e = some 0
  | [], col, _, _ => by simp [subCol]
  | d :: dt, [], _, _ => by simp [subCol]
  | d :: dt, o :: ct, hd, hc => by
    intro e he
    rw [subCol, List.zipWith_cons_cons] at he
    rcases List.mem_cons.mp he with h | h
    · subst h
      rcases hc o (List.mem_cons_self o ct) with ho | ho
      · subst ho
        exact Or.inl rfl
      · subst ho
        have hdc : d = c := hd d (List.mem_cons_self d dt)
        right
        simp [hdc]
    · exact subCol_const_mem c dt ct (fun x hx => hd x (List.mem_cons_of_mem d hx))
        (fun x hx => hc x (List.mem_cons_of_mem o hx)) e h

theorem countP_subCol :
    ∀ (ds : List ℚ) (col : Col), col.length ≤ ds.length →
      (subCol ds col).countP (fun o => o.isSome) = col.countP (fun o => o.isSome)
  | _, [], _ => by simp [subCol]
  | [], o :: ct, h => by simp at h
  | d :: dt, o :: ct, h => by
    simp only [subCol, List.zipWith_cons_cons, List.countP_cons]
    have ih := countP_subCol dt ct (by simpa using h)
    simp only [subCol] at ih
    rw [ih]
    cases o <;> simp

theorem length_filterMap_id (xs : Col) :
    (xs.filterMap id).length = xs.countP (fun o => o.isSome) := by
  induction xs with
  | nil => simp
  | cons o t ih => cases o <;> simp [List.filterMap_cons, List.countP_cons, ih]

theorem countP_isSome_map (g : ℚ → ℚ) (xs : Col) :
    (xs.map (Option.map g)).countP (fun o => o.isSome)
      = xs.countP (fun o => o.isSome) := by
  rw [List.countP_map]
  simp only [Function.comp_def, Option.isSome_map']

theorem nanMean_of_zeros (xs : Col) (h0 : ∀ x ∈ xs.filterMap id, x = 0)
    (hne : (xs.filterMap id).length ≠ 0) : nanMean xs = some 0 := by
  simp only [nanMean]
  rw [if_neg hne, List.sum_eq_zero h0, zero_div]

/-- On a constant series, any column that is `c` wherever defined and has
at least one defined entry has MAD `0`, MSE `0`, and an undefined
tracking signal. -/
theorem const_metrics (ds : List ℚ) (col : Col) (c : ℚ)
    (hd : ∀ d ∈ ds, d = c) (hcol : ∀ o ∈ col, o = none ∨ o = some c)
    (hlen : col.length ≤ ds.length)
    (hnz : col.countP (fun o => o.isSome) ≠ 0) :
    mean_absolute_deviation ds col = some 0 ∧
    mean_squared_error ds col = some 0 ∧
    tracking_signal ds col = none := by
  have herr := subCol_const_mem c ds col hd hcol
  have hcnt := countP_subCol ds col hlen
  have hzeros : ∀ g : ℚ → ℚ, g 0 = 0 →
      ∀ x ∈ ((subCol ds col).map (Option.map g)).filterMap id, x = 0 := by
    intro g hg x hx
    rcases List.mem_filterMap.mp hx with ⟨o, ho, hid⟩
    rcases List.mem_map.mp ho with ⟨e, he, hoe⟩
    rcases herr e he with rfl | rfl
    · subst hoe
      simp at hid
    · subst hoe
      simp only [Option.map_some', id_eq, Option.some.injEq] at hid
      rw [← hid, hg]
  have hnzg : ∀ g : ℚ → ℚ,
      (((subCol ds col).map (Option.map g)).filterMap id).length ≠ 0 := by
    intro g
    rw [length_filterMap_id, countP_isSome_map, hcnt]
    exact hnz
  have hmad : mean_absolute_deviation ds col = some 0 := by
    rw [mean_absolute_deviation]
    exact nanMean_of_zeros _ (hzeros (fun x => |x|) (by simp)) (hnzg _)
  refine ⟨hmad, ?_, ?_⟩
  · rw [mean_squared_error]
    exact nanMean_of_zeros _ (hzeros (fun x => x * x) (by simp)) (hnzg _)
  · simp [tracking_signal, hmad]

/-- C8 (amended): on a constant series `demand = c` with at least 4
weeks (so every method has a defined entry), all three forecast columns
equal `c` wherever defined, every method has MAD and MSE exactly `0`,
and every tracking signal is the explicit undefined value. -/
theorem c8_constant_series (n : ℕ) (c α : ℚ) (h4 : 4 ≤ n) :
    (∀ o ∈ shiftNum (List.replicate n c), o = none ∨ o = some c) ∧
    (∀ o ∈ shiftOpt (rollingMean3 (List.replicate n c)), o = none ∨ o = some c) ∧
    esList (List.replicate n c) α = List.replicate n c ∧
    (mean_absolute_deviation (List.replicate n c) (shiftNum (List.replicate n c))
        = some 0 ∧
      mean_squared_error (List.replicate n c) (shiftNum (List.replicate n c))
        = some 0 ∧
      tracking_signal (List.replicate n c) (shiftNum (List.replicate n c)) = none) ∧
    (mean_absolute_deviation (List.replicate n c)
        (shiftOpt (rollingMean3 (List.replicate n c))) = some 0 ∧
      mean_squared_error (List.replicate n c)
        (shiftOpt (rollingMean3 (List.replicate n c))) = some 0 ∧
      tracking_signal (List.replicate n c)
        (shiftOpt (rollingMean3 (List.replicate n c))) = none) ∧
    (mean_absolute_deviation (List.replicate n c)
        ((esList (List.replicate n c) α).map some) = some 0 ∧
      mean_squared_error (List.replicate n c)
        ((esList (List.replicate n c) α).map some) = some 0 ∧
      tracking_signal (List.replicate n c)
        ((esList (List.replicate n c) α).map some) = none) := by
  have hd : ∀ d ∈ List.replicate n c, d = c := fun d h => List.eq_of_mem_replicate h
  refine ⟨mem_shiftNum_replicate n c, mem_twm_replicate n c, esList_const n c α,
    ?_, ?_, ?_⟩
  · apply const_metrics _ _ c hd (mem_shiftNum_replicate n c)
    · rw [length_shiftNum]
    · have h := definedCount_shiftNum (List.replicate n c)
      rw [definedCount] at h
      rw [h]
      simp only [List.length_replicate]
      omega
  · apply const_metrics _ _ c hd (mem_twm_replicate n c)
    · rw [length_shiftOpt, length_rollingMean3]
    · have h := definedCount_twm (List.replicate n c)
      rw [definedCount] at h
      rw [h]
      simp only [List.length_replicate]
      omega
  · have hmem : ∀ o ∈ (esList (List.replicate n c) α).map some,
        o = none ∨ o = some c := by
      rw [esList_const, List.map_replicate]
      exact fun o ho => Or.inr (List.eq_of_mem_replicate ho)
    apply const_metrics _ _ c hd hmem
    · rw [List.length_map, esList_length]
    · have h := definedCount_map_some (esList (List.replicate n c) α)
      rw [definedCount] at h
      rw [h, esList_length]
      simp only [List.length_replicate]
      omega

/-- C8 as stated is false: on the constant series `[5, 5, 5]` (3 weeks)
the `ThreeWeeksMA` column has no defined entry, so its MAD is the
undefined value, not `0`. -/
theorem c8_counterexample :
    mean_absolute_deviation [5, 5, 5] (shiftOpt (rollingMean3 [5, 5, 5])) ≠ some 0 := by
  have h : shiftOpt (rollingMean3 [(5 : ℚ), 5, 5]) = [none, none, none] := rfl
  rw [h]
  simp [mean_absolute_deviation, subCol, nanMean]

/-- Witness for C8 on the constant series of four weeks of demand `7`:
the `ThreeWeeksMA` metrics are `0`/`0`/undefined. -/
theorem c8_witness :
    mean_absolute_deviation (List.replicate 4 (7 : ℚ))
        (shiftOpt (rollingMean3 (List.replicate 4 (7 : ℚ)))) = some 0 ∧
    tracking_signal (List.replicate 4 (7 : ℚ))
        (shiftOpt (rollingMean3 (List.replicate 4 (7 : ℚ)))) = none := by
  have h := c8_constant_series 4 7 (1 / 2) (by norm_num)
  exact ⟨h.2.2.2.2.1.1, h.2.2.2.2.1.2.2⟩

end DemandForecast
